import Mathlib

/-!
Verification of the indexing and QA pipeline core of the repository
(src/app/core/retrieval/serialization.py, vector_store_rest.py,
vector_store.py, src/app/core/agents/agents.py, src/app/services/
indexing_service.py, src/app/api.py) via a shallow embedding.

Python dictionaries holding chunk metadata are modelled by the
`Metadata` structure with one `Option PyVal` field per key that the
code reads (`page`, `page_number`, `source`); `none` means the key is
absent, `some PyVal.pynone` means the key is present with value
`None`.  Python truthiness is modelled by `PyVal.truthy`.
-/

/-- Values that can occur in chunk metadata: strings, integers, or
Python `None`. -/
inductive PyVal where
  | str (s : String)
  | int (n : Int)
  | pynone
deriving DecidableEq, Repr

/-- Python truthiness: empty string, 0 and None are falsy. -/
def PyVal.truthy : PyVal → Bool
  | .str s => !s.isEmpty
  | .int n => n != 0
  | .pynone => false

/-- Characters stripped by Python str.strip() with no arguments. -/
def isPySpace (c : Char) : Bool := c.isWhitespace

/-- Drop leading and trailing whitespace from a character list. -/
def stripList (l : List Char) : List Char :=
  ((l.dropWhile isPySpace).reverse.dropWhile isPySpace).reverse

/-- Model of Python str.strip(). -/
def pyStrip (s : String) : String := String.mk (stripList s.data)

/-- Decimal digits of a natural number, most significant first, with
explicit fuel (the fuel is always sufficient at `n + 1`). -/
def toDecimalAux : Nat → Nat → List Char
  | 0, _ => []
  | f + 1, n =>
    if n < 10 then [Nat.digitChar n]
    else toDecimalAux f (n / 10) ++ [Nat.digitChar (n % 10)]

/-- Model of Python str() on a non-negative integer. -/
def pyNatStr (n : Nat) : String := String.mk (toDecimalAux (n + 1) n)

/-- Model of Python str() on an integer. -/
def pyIntStr (n : Int) : String :=
  if n < 0 then "-" ++ pyNatStr n.natAbs else pyNatStr n.toNat

/-- Model of what a Python f-string interpolation renders a metadata
value as. -/
def PyVal.pyStr : PyVal → String
  | .str s => s
  | .int n => pyIntStr n
  | .pynone => "None"

/-- Metadata dictionary of a LangChain Document, restricted to the keys
the embedded code reads. -/
structure Metadata where
  page : Option PyVal
  page_number : Option PyVal
  source : Option PyVal
deriving DecidableEq, Repr

/-- A LangChain Document: page content plus metadata. -/
structure Document where
  page_content : String
  metadata : Metadata
deriving DecidableEq, Repr

/-- Python dict.get(key) with no default: absent keys read as None. -/
def pyGet (o : Option PyVal) : PyVal := o.getD PyVal.pynone

/-- The serializer's page computation:
metadata.get("page") or metadata.get("page_number", "unknown"). -/
def pageLookup (m : Metadata) : PyVal :=
  let p := pyGet m.page
  if p.truthy then p else m.page_number.getD (PyVal.str "unknown")

/-- The serializer's source computation: metadata.get("source", "unknown"). -/
def sourceLookup (m : Metadata) : PyVal :=
  m.source.getD (PyVal.str "unknown")

/-- One entry of the citation map built by serialize_chunks_with_ids. -/
structure Citation where
  page : PyVal
  snippet : String
  source : PyVal
deriving DecidableEq, Repr

/-- The chunk id assigned at 1-based rank i: the Python f-string "C{i}". -/
def cid (i : Nat) : String := "C" ++ pyNatStr i

/-- One pass over the documents starting at index `idx`, building for
each document both its context block and its citation-map entry,
mirroring the loop body of serialize_chunks_with_ids. -/
def serializeEntries : Nat → List Document → List (String × (String × Citation))
  | _, [] => []
  | idx, d :: ds =>
    let chunk_id := cid idx
    let page_num := pageLookup d.metadata
    let source := sourceLookup d.metadata
    let content := pyStrip d.page_content
    ("[" ++ chunk_id ++ "] Chunk from page " ++ page_num.pyStr ++ ":\n" ++ content,
      (chunk_id, { page := page_num, snippet := content, source := source }))
      :: serializeEntries (idx + 1) ds

/-- Embedding of serialize_chunks_with_ids
(src/app/core/retrieval/serialization.py): returns the context string
(blocks joined by a blank line) and the citation map in insertion
order. -/
def serialize_chunks_with_ids (docs : List Document) :
    String × List (String × Citation) :=
  let entries := serializeEntries 1 docs
  (String.intercalate "\n\n" (entries.map Prod.fst), entries.map Prod.snd)

/-- Parse a most-significant-first digit list back to a natural number
(left inverse used to prove the decimal rendering injective). -/
def decVal (l : List Char) : Nat :=
  l.foldl (fun acc c => acc * 10 + (c.toNat - 48)) 0

/-- What the spec says entry i of the serializer output should be:
the context block and the citation entry for 1-based rank i. -/
def specEntry (i : Nat) (d : Document) : String × (String × Citation) :=
  ("[" ++ cid i ++ "] Chunk from page " ++ (pageLookup d.metadata).pyStr
      ++ ":\n" ++ pyStrip d.page_content,
    (cid i,
      { page := pageLookup d.metadata, snippet := pyStrip d.page_content,
        source := sourceLookup d.metadata }))

example : pyNatStr 0 = "0" := by decide
example : pyNatStr 12 = "12" := by decide
example : pyStrip "  x y  " = "x y" := by decide
example :
    serialize_chunks_with_ids
      [⟨"hello", ⟨some (PyVal.int 3), none, some (PyVal.str "doc.pdf")⟩⟩,
       ⟨" world ", ⟨none, some (PyVal.int 7), some (PyVal.str "doc.pdf")⟩⟩] =
    ("[C1] Chunk from page 3:\nhello\n\n[C2] Chunk from page 7:\nworld",
     [("C1", ⟨PyVal.int 3, "hello", PyVal.str "doc.pdf"⟩),
      ("C2", ⟨PyVal.int 7, "world", PyVal.str "doc.pdf"⟩)]) := by decide

/-! ### Agent transcripts and pipeline state (agents.py, state.py) -/

/-- The artifact attached to a ToolMessage.  The retrieval tool returns
the 2-tuple (docs, citation_map); any other Python object a transcript
could carry is collapsed into the `other` constructor (with its
truthiness), since the code only ever destructures 2-tuples. -/
inductive PyArtifact where
  | pair (docs : List Document) (cmap : List (String × Citation))
  | other (truthy : Bool)
deriving DecidableEq, Repr

/-- A message of a LangChain transcript: AIMessage, HumanMessage or
ToolMessage (the latter with its optional artifact). -/
inductive Message where
  | ai (content : String)
  | human (content : String)
  | tool (content : String) (artifact : Option PyArtifact)
deriving DecidableEq, Repr

/-- Scan a reversed message list for the first ToolMessage whose
artifact is a truthy 2-tuple, mirroring the loop of
extract_artifacts_from_messages; a ToolMessage without such an
artifact is skipped and the scan continues. -/
def extractArtifactsRev :
    List Message → List Document × List (String × Citation)
  | [] => ([], [])
  | .tool _ (some (.pair ds cm)) :: _ => (ds, cm)
  | _ :: rest => extractArtifactsRev rest

/-- Embedding of extract_artifacts_from_messages (agents.py):
the artifact of the last well-formed ToolMessage, else ([], {}). -/
def extract_artifacts_from_messages (msgs : List Message) :
    List Document × List (String × Citation) :=
  extractArtifactsRev msgs.reverse

/-- Scan a reversed message list for the first ToolMessage and return
its content, mirroring the loop of retrieval_node. -/
def findLastToolContentRev : List Message → Option String
  | [] => none
  | .tool c _ :: _ => some c
  | _ :: rest => findLastToolContentRev rest

/-- The last ToolMessage of a transcript together with its artifact,
as the spec describes the post-processing contract (scan in reverse
for the last tool-result message). -/
def lastToolPayloadRev : List Message → Option (String × Option PyArtifact)
  | [] => none
  | .tool c a :: _ => some (c, a)
  | _ :: rest => lastToolPayloadRev rest

/-- The post-processing of retrieval_node on the transcript: context
from the last ToolMessage's content, citations from the artifact scan;
({} becomes None via the `citations if citations else None` return). -/
def retrieval_extract (msgs : List Message) :
    String × Option (List (String × Citation)) :=
  match findLastToolContentRev msgs.reverse with
  | none => ("", none)
  | some c =>
    let cm := (extractArtifactsRev msgs.reverse).2
    (c, if cm.isEmpty then none else some cm)

/-- Scan a reversed message list for the first AIMessage, mirroring
extract_last_ai_content (agents.py). -/
def extractLastAIRev : List Message → String
  | [] => ""
  | .ai c :: _ => c
  | _ :: rest => extractLastAIRev rest

/-- Embedding of extract_last_ai_content. -/
def extract_last_ai_content (msgs : List Message) : String :=
  extractLastAIRev msgs.reverse

/-- The QAState TypedDict (state.py).  `none` on an Option field plays
the role of both an absent key and an explicit None value. -/
structure QAState where
  question : String
  context : Option String
  draft_answer : Option String
  answer : Option String
  citations : Option (List (String × Citation))
deriving DecidableEq, Repr

/-- Insert a string into an already sorted list (helper for the model
of Python sorted()). -/
def insertSorted (s : String) : List String → List String
  | [] => [s]
  | t :: ts => if s ≤ t then s :: t :: ts else t :: insertSorted s ts

/-- Model of Python sorted() on a list of strings. -/
def pySorted (l : List String) : List String := l.foldr insertSorted []

/-- Python truthiness of an optional citation map: None and {} are
falsy. -/
def citationsTruthy : Option (List (String × Citation)) → Bool
  | some cm => !cm.isEmpty
  | none => false

/-- The comma-separated sorted chunk-id list interpolated into the
summarization and verification prompts. -/
def chunkIdsStr (cm : List (String × Citation)) : String :=
  String.intercalate ", " (pySorted (cm.map Prod.fst))

/-- Embedding of retrieval_node (agents.py): the agent is abstracted
as a function from the question to the transcript it returns; the node
stores the extracted context and citations in the state. -/
def retrieval_node (agent : String → List Message) (s : QAState) : QAState :=
  let msgs := agent s.question
  let e := retrieval_extract msgs
  { s with context := some e.1, citations := e.2 }

/-- The user prompt built by summarization_node. -/
def summarizationPrompt (s : QAState) : String :=
  let citation_info :=
    match s.citations with
    | some cm =>
      if cm.isEmpty then ""
      else "\nAvailable chunk IDs for citation: " ++ chunkIdsStr cm
    | none => ""
  "Question: " ++ s.question ++ "\n\nContext:\n" ++ s.context.getD "None"
    ++ citation_info

/-- Embedding of summarization_node (agents.py). -/
def summarization_node (agent : String → List Message) (s : QAState) :
    QAState :=
  let msgs := agent (summarizationPrompt s)
  { s with draft_answer := some (extract_last_ai_content msgs) }

/-- The user prompt built by verification_node. -/
def verificationPrompt (s : QAState) : String :=
  let citation_info :=
    match s.citations with
    | some cm =>
      if cm.isEmpty then ""
      else "\nValid chunk IDs in this context: " ++ chunkIdsStr cm
        ++ "\nRemove citations for invalid chunk IDs if found."
    | none => ""
  "Question: " ++ s.question ++ "\n\nContext:\n" ++ s.context.getD ""
    ++ "\n\nDraft Answer:\n" ++ s.draft_answer.getD ""
    ++ "\n\nPlease verify and correct the draft answer, ensuring:\n"
    ++ "1. Remove any unsupported claims\n"
    ++ "2. Maintain citation accuracy - keep citations that are valid, remove invalid ones\n"
    ++ "3. All cited chunks (e.g., C1, C2) must exist in the context"
    ++ citation_info ++ "\n"
    ++ "4. Return only the corrected answer with proper citations (no explanations)."

/-- Embedding of verification_node (agents.py). -/
def verification_node (agent : String → List Message) (s : QAState) :
    QAState :=
  let msgs := agent (verificationPrompt s)
  { s with answer := some (extract_last_ai_content msgs) }

/-- The linear LangGraph pipeline: retrieval, then summarization, then
verification, one pass. -/
def run_pipeline (a1 a2 a3 : String → List Message) (s : QAState) :
    QAState :=
  verification_node a3 (summarization_node a2 (retrieval_node a1 s))

/-! ### The /qa endpoint (api.py, models.py) -/

/-- The dict returned by the qa_service layer, read with .get by the
endpoint. -/
structure QAResultDict where
  answer : Option String
  context : Option String
  citations : Option (List (String × Citation))

/-- The QAResponse Pydantic model (models.py). -/
structure QAResponse where
  answer : String
  context : String
  citations : Option (List (String × Citation))
deriving DecidableEq

/-- Embedding of qa_endpoint (api.py).  The pipeline service
answer_question is abstracted as a function; the second component of
the result records the arguments of every call made to it, so that
"the pipeline service is never invoked" is the statement that this
log is empty. -/
def qa_endpoint (answer_question : String → QAResultDict)
    (question : String) : Except Nat QAResponse × List String :=
  let q := pyStrip question
  if q.isEmpty then (Except.error 400, [])
  else
    let r := answer_question q
    (Except.ok
      { answer := r.answer.getD "", context := r.context.getD "",
        citations := r.citations },
      [q])

/-! ### clear_index (vector_store.py) and the upload endpoint -/

/-- Whether the first list is a prefix of the second. -/
def leadsWith : List Char → List Char → Bool
  | [], _ => true
  | _ :: _, [] => false
  | a :: as, b :: bs => a == b && leadsWith as bs

/-- Whether the first list occurs as a contiguous substring of the
second (model of the Python `in` operator on strings). -/
def hasSub (needle : List Char) : List Char → Bool
  | [] => needle.isEmpty
  | c :: rest => leadsWith needle (c :: rest) || hasSub needle rest

/-- The outcomes of the network calls clear_index can make, one field
per call site.  An `Except.error` models that call raising; the
environment fixes the outcome of index.delete(delete_all=True) so a
retried delete fails the same way. -/
structure ClearEnv where
  listIndexes : Except String (List String)
  indexName : String
  statsTotal : Except String Nat
  deleteAll : Except String Unit

/-- The inner `except Exception as stats_error` handler of clear_index:
log a warning, retry the delete, and swallow its failure (with a
special case for "Namespace not found"). -/
def handleStatsFailure (env : ClearEnv) (msg : String) : List String :=
  let warn := "warn: Could not get index stats: " ++ msg
  match env.deleteAll with
  | .ok _ => [warn, "info: Attempted to clear index"]
  | .error de =>
    if hasSub "Namespace not found".data de.data then
      [warn, "info: Namespace was already empty"]
    else [warn, "warn: Could not clear index: " ++ de]

/-- Embedding of clear_index (vector_store.py): the Except component
is the exception behaviour seen by the caller, the list is the log. -/
def clear_index (env : ClearEnv) : Except String Unit × List String :=
  match env.listIndexes with
  | .error e => (.ok (), ["warn: Pinecone operation failed: " ++ e])
  | .ok names =>
    if env.indexName ∈ names then
      match env.statsTotal with
      | .ok total =>
        if total > 0 then
          match env.deleteAll with
          | .ok _ => (.ok (), ["info: Cleared vectors from index"])
          | .error de => (.ok (), handleStatsFailure env de)
        else (.ok (), ["info: Index is already empty, nothing to clear"])
      | .error se => (.ok (), handleStatsFailure env se)
    else (.ok (), ["info: Index does not exist, nothing to clear"])

/-- The clear-then-ingest sequencing of the index_pdf endpoint
(api.py): an exception escaping clear_index would abort the request
before indexing, so ingestion runs only in the .ok case. -/
def index_pdf_after_clear (env : ClearEnv)
    (ingest : Except String Nat) : Except String Nat :=
  match (clear_index env).1 with
  | .error e => .error e
  | .ok _ => ingest

/-! ### index_documents (vector_store_rest.py) and index_pdf_file -/

/-- The parent-document metadata defaulting at the top of the
index_documents loop. -/
def prepParent (d : Document) : Document :=
  let m := d.metadata
  let m1 :=
    if m.source.isSome then m
    else { m with source := some (PyVal.str "unknown") }
  let m2 :=
    if m1.page.isSome || m1.page_number.isSome then m1
    else { m1 with page := some (PyVal.str "unknown") }
  { d with metadata := m2 }

/-- The per-chunk metadata propagation inside the index_documents
loop: inherit page and source from the (prepared) parent when the
splitter did not set them. -/
def fixChunk (parent : Document) (ch : Document) : Document :=
  let m := ch.metadata
  let m1 :=
    if m.page.isSome || m.page_number.isSome then m
    else { m with page := some (parent.metadata.page.getD (PyVal.str "unknown")) }
  let m2 :=
    if m1.source.isSome then m1
    else { m1 with source := some (parent.metadata.source.getD (PyVal.str "unknown")) }
  { ch with metadata := m2 }

/-- The chunk-collection loop of index_documents: each document is
prepared and split on its own (never the concatenation of documents),
and its chunks are post-processed with its own metadata.  The text
splitter is abstracted as a function. -/
def prepChunks (split : Document → List Document) :
    List Document → List Document
  | [] => []
  | d :: ds =>
    let p := prepParent d
    (split p).map (fixChunk p) ++ prepChunks split ds

/-- A vector record sent to the Pinecone upsert REST call; metadata is
the chunk metadata plus the chunk text under the "text" key. -/
structure VecRecord (Emb : Type) where
  id : String
  values : Emb
  meta : Metadata
  text : String

/-- The enumerate(zip(all_chunks, text_embeddings)) loop building
vector records with ids "vec_{i}_{hash(content)}"; Python hash is
abstracted as a function. -/
def mkVectorsAux {Emb : Type} (hash : String → Int) :
    Nat → List (Document × Emb) → List (VecRecord Emb)
  | _, [] => []
  | i, (ch, e) :: rest =>
    { id := "vec_" ++ pyNatStr i ++ "_" ++ pyIntStr (hash ch.page_content),
      values := e, meta := ch.metadata, text := ch.page_content }
      :: mkVectorsAux hash (i + 1) rest

/-- Build all vector records (enumeration starts at 0; zip truncates
to the shorter list, as in Python). -/
def mkVectors {Emb : Type} (hash : String → Int) (chunks : List Document)
    (embs : List Emb) : List (VecRecord Emb) :=
  mkVectorsAux hash 0 (chunks.zip embs)

/-- The batching loop: slices of 100 records. -/
def toBatches {α : Type} (l : List α) : List (List α) :=
  if l.isEmpty then [] else l.take 100 :: toBatches (l.drop 100)
termination_by l.length
decreasing_by
  rename_i h
  simp only [List.length_drop]
  have hl : l ≠ [] := by simpa using h
  have hp : 0 < l.length := List.length_pos.mpr hl
  omega

/-- Upsert the batches in order, stopping at the first failing call
(a raise_for_status escaping the loop). -/
def upsertBatches {Emb : Type}
    (upsert : List (VecRecord Emb) → Except String Unit) :
    List (List (VecRecord Emb)) → Except String Unit
  | [] => .ok ()
  | b :: bs =>
    match upsert b with
    | .error e => .error e
    | .ok _ => upsertBatches upsert bs

/-- Embedding of index_documents (vector_store_rest.py).  The
embedding client, the upsert call, the text splitter and Python hash
are abstracted as functions; an Except.error is an exception
propagating to the caller. -/
def index_documents {Emb : Type} (split : Document → List Document)
    (embed : List String → Except String (List Emb))
    (upsert : List (VecRecord Emb) → Except String Unit)
    (hash : String → Int) (docs : List Document) : Except String Nat :=
  let all_chunks := prepChunks split docs
  let texts := all_chunks.map Document.page_content
  match embed texts with
  | .error e => .error e
  | .ok embs =>
    match upsertBatches upsert (toBatches (mkVectors hash all_chunks embs)) with
    | .error e => .error e
    | .ok _ => .ok all_chunks.length

/-- The per-page metadata defaulting of index_pdf_file
(indexing_service.py) for the page at 1-based position i. -/
def fixLoadedDoc (path : String) (i : Nat) (d : Document) : Document :=
  let m := d.metadata
  let m1 :=
    if (pyGet m.page).truthy || (pyGet m.page_number).truthy then m
    else { m with page := some (PyVal.int i) }
  let m2 :=
    if (pyGet m1.source).truthy then m1
    else { m1 with source := some (PyVal.str path) }
  { d with metadata := m2 }

/-- The enumerate(docs, start=1) loop of index_pdf_file, starting at
position i. -/
def fixLoop (path : String) : Nat → List Document → List Document
  | _, [] => []
  | i, d :: ds => fixLoadedDoc path i d :: fixLoop path (i + 1) ds

/-- All loaded pages with the index_pdf_file metadata defaulting
applied. -/
def fixLoadedDocs (path : String) (docs : List Document) : List Document :=
  fixLoop path 1 docs

/-- Embedding of index_pdf_file (indexing_service.py): load the pages,
default their metadata, then hand them to index_documents.  The PDF
loader is abstracted as a function of the path. -/
def index_pdf_file {Emb : Type} (load : String → List Document)
    (split : Document → List Document)
    (embed : List String → Except String (List Emb))
    (upsert : List (VecRecord Emb) → Except String Unit)
    (hash : String → Int) (path : String) : Except String Nat :=
  index_documents split embed upsert hash (fixLoadedDocs path (load path))

/-- A default document for List.getD statements. -/
def dummyDoc : Document := ⟨"", ⟨none, none, none⟩⟩

/-! ### Injectivity of the decimal rendering and of chunk ids -/

theorem decVal_append_digit (l : List Char) (c : Char) :
    decVal (l ++ [c]) = decVal l * 10 + (c.toNat - 48) := by
  simp [decVal, List.foldl_append]

theorem digitChar_val (d : Nat) (hd : d < 10) :
    (Nat.digitChar d).toNat - 48 = d := by
  interval_cases d <;> decide

theorem decVal_toDecimalAux (f : Nat) :
    ∀ n : Nat, n < 10 ^ f → decVal (toDecimalAux f n) = n := by
  induction f with
  | zero =>
    intro n hn
    simp at hn
    subst hn
    decide
  | succ f ih =>
    intro n hn
    by_cases h10 : n < 10
    · simp [toDecimalAux, h10, decVal, digitChar_val n h10]
    · have hdiv : n / 10 < 10 ^ f := by
        rw [Nat.div_lt_iff_lt_mul (by norm_num)]
        calc n < 10 ^ (f + 1) := hn
        _ = 10 ^ f * 10 := by rw [pow_succ]
      rw [toDecimalAux]
      simp only [h10, if_false]
      rw [decVal_append_digit, ih (n / 10) hdiv,
        digitChar_val (n % 10) (Nat.mod_lt n (by norm_num)),
        Nat.mul_comm]
      exact Nat.div_add_mod n 10

theorem pyNatStr_injective : Function.Injective pyNatStr := by
  intro a b h
  have hd : toDecimalAux (a + 1) a = toDecimalAux (b + 1) b :=
    congrArg String.data h
  have ha : a < 10 ^ (a + 1) :=
    lt_of_lt_of_le (Nat.lt_pow_self (by norm_num) a)
      (Nat.pow_le_pow_right (by norm_num) (Nat.le_succ a))
  have hb : b < 10 ^ (b + 1) :=
    lt_of_lt_of_le (Nat.lt_pow_self (by norm_num) b)
      (Nat.pow_le_pow_right (by norm_num) (Nat.le_succ b))
  calc a = decVal (toDecimalAux (a + 1) a) := (decVal_toDecimalAux _ a ha).symm
  _ = decVal (toDecimalAux (b + 1) b) := by rw [hd]
  _ = b := decVal_toDecimalAux _ b hb

theorem cid_injective : Function.Injective cid := by
  intro a b h
  have hd : ('C' :: (pyNatStr a).data) = ('C' :: (pyNatStr b).data) := by
    have := congrArg String.data h
    simpa [cid, String.data_append] using this
  exact pyNatStr_injective (String.ext (List.cons_injective hd))

/-! ### Structure lemmas for the serializer -/

theorem serializeEntries_eq_zipWith (docs : List Document) :
    ∀ i : Nat, serializeEntries i docs =
      (List.range docs.length).zipWith (fun j d => specEntry (i + j) d)
        docs := by
  induction docs with
  | nil => intro i; rfl
  | cons d ds ih =>
    intro i
    rw [serializeEntries, List.length_cons, List.range_succ_eq_map,
      List.zipWith_cons_cons, List.zipWith_map_left, ih (i + 1)]
    have hfun : (fun (j : Nat) (b : Document) => specEntry (i + 1 + j) b)
        = fun (j : Nat) (b : Document) => specEntry (i + Nat.succ j) b := by
      funext j b
      have h : i + 1 + j = i + Nat.succ j := by omega
      rw [h]
    rw [hfun]
    rfl

theorem zipWith_left_eq_map {α β γ : Type} (f : α → γ) :
    ∀ (l1 : List α) (l2 : List β), l1.length = l2.length →
      List.zipWith (fun a _ => f a) l1 l2 = l1.map f := by
  intro l1
  induction l1 with
  | nil => intro l2 h; simp
  | cons a as ih =>
    intro l2 h
    cases l2 with
    | nil => simp at h
    | cons b bs =>
      simp only [List.zipWith_cons_cons, List.map_cons]
      rw [ih bs (by simpa using h)]

theorem serialize_citations_eq (docs : List Document) :
    (serialize_chunks_with_ids docs).2
      = (List.range docs.length).zipWith
          (fun j d => (specEntry (j + 1) d).2) docs := by
  show (serializeEntries 1 docs).map Prod.snd = _
  rw [serializeEntries_eq_zipWith docs 1, List.map_zipWith]
  congr 1
  funext j d
  show (specEntry (1 + j) d).2 = (specEntry (j + 1) d).2
  rw [Nat.add_comm]

theorem serialize_context_eq (docs : List Document) :
    (serialize_chunks_with_ids docs).1
      = String.intercalate "\n\n"
          ((List.range docs.length).zipWith
            (fun j d => (specEntry (j + 1) d).1) docs) := by
  show String.intercalate "\n\n" ((serializeEntries 1 docs).map Prod.fst) = _
  rw [serializeEntries_eq_zipWith docs 1, List.map_zipWith]
  congr 1
  congr 1
  funext j d
  show (specEntry (1 + j) d).1 = (specEntry (j + 1) d).1
  rw [Nat.add_comm]

theorem serialize_keys_eq (docs : List Document) :
    (serialize_chunks_with_ids docs).2.map Prod.fst
      = (List.range docs.length).map (fun j => cid (j + 1)) := by
  rw [serialize_citations_eq, List.map_zipWith]
  show List.zipWith (fun (j : Nat) (_ : Document) => cid (j + 1))
    (List.range docs.length) docs = _
  exact zipWith_left_eq_map _ _ _ (by simp)

theorem serialize_keys_nodup (docs : List Document) :
    ((serialize_chunks_with_ids docs).2.map Prod.fst).Nodup := by
  rw [serialize_keys_eq]
  refine List.Nodup.map ?_ (List.nodup_range _)
  intro a b h
  have hab := cid_injective h
  omega

/-- Claim C1 counterexample: on the one-chunk input whose content is
" x " (with page 1 and source "doc.pdf"), the citation snippet is the
stripped string "x", not the chunk's content verbatim, refuting the
verbatim-snippet part of the claim. -/
theorem claim_C1_counterexample :
    ((serialize_chunks_with_ids
        [⟨" x ", ⟨some (PyVal.int 1), none, some (PyVal.str "doc.pdf")⟩⟩]).2.map
      (fun e => e.2.snippet)) = ["x"]
    ∧ ¬ (((serialize_chunks_with_ids
        [⟨" x ", ⟨some (PyVal.int 1), none, some (PyVal.str "doc.pdf")⟩⟩]).2.map
      (fun e => e.2.snippet)) = [" x "]) := by
  exact ⟨by decide, by decide⟩

/-- Claim C1 (amended): for a list of n chunks the serializer's
citation map has, in rank order, exactly the keys C1..Cn, where entry
i carries as snippet the i-th chunk's content stripped of surrounding
whitespace, as page the chunk's page metadata if truthy (else its
page_number value if the key is present, else "unknown"), and as
source the chunk's source metadata value (else "unknown"); the
context string is the blocks "[Ci] Chunk from page <page>:\n<stripped
content>" joined by a blank line. -/
theorem claim_C1_serializer_amended (docs : List Document) :
    (serialize_chunks_with_ids docs).2
      = (List.range docs.length).zipWith
          (fun j d =>
            (cid (j + 1),
              { page := pageLookup d.metadata,
                snippet := pyStrip d.page_content,
                source := sourceLookup d.metadata : Citation })) docs
    ∧ (serialize_chunks_with_ids docs).1
      = String.intercalate "\n\n"
          ((List.range docs.length).zipWith
            (fun j d => "[" ++ cid (j + 1) ++ "] Chunk from page "
              ++ (pageLookup d.metadata).pyStr ++ ":\n"
              ++ pyStrip d.page_content) docs)
    ∧ (serialize_chunks_with_ids docs).2.map Prod.fst
      = (List.range docs.length).map (fun j => cid (j + 1)) :=
  ⟨serialize_citations_eq docs, serialize_context_eq docs,
    serialize_keys_eq docs⟩

/-- Claim C7: the serializer is a deterministic pure function (equal
inputs give equal context strings and citation maps), no two distinct
chunks of one call receive the same id, and the id space is the
contiguous run C1..Cn sized to the input length. -/
theorem claim_C7_determinism_unique_ids (docs : List Document) :
    (∀ docs2 : List Document, docs2 = docs →
      serialize_chunks_with_ids docs2 = serialize_chunks_with_ids docs)
    ∧ ((serialize_chunks_with_ids docs).2.map Prod.fst).Nodup
    ∧ (serialize_chunks_with_ids docs).2.map Prod.fst
        = (List.range docs.length).map (fun j => cid (j + 1)) :=
  ⟨fun _ h => by rw [h], serialize_keys_nodup docs, serialize_keys_eq docs⟩

/-- Claim C7 witness: the determinism statement applied to a concrete
two-chunk input. -/
theorem claim_C7_witness :
    serialize_chunks_with_ids
        [⟨"a", ⟨some (PyVal.int 1), none, some (PyVal.str "d.pdf")⟩⟩,
         ⟨"b", ⟨some (PyVal.int 2), none, some (PyVal.str "d.pdf")⟩⟩]
      = serialize_chunks_with_ids
        [⟨"a", ⟨some (PyVal.int 1), none, some (PyVal.str "d.pdf")⟩⟩,
         ⟨"b", ⟨some (PyVal.int 2), none, some (PyVal.str "d.pdf")⟩⟩]
    ∧ ((serialize_chunks_with_ids
        [⟨"a", ⟨some (PyVal.int 1), none, some (PyVal.str "d.pdf")⟩⟩,
         ⟨"b", ⟨some (PyVal.int 2), none, some (PyVal.str "d.pdf")⟩⟩]).2.map
      Prod.fst).Nodup :=
  ⟨(claim_C7_determinism_unique_ids _).1 _ rfl,
   (claim_C7_determinism_unique_ids _).2.1⟩

/-! ### Retrieval-node post-processing (claims C2, C8) -/

theorem lastTool_none_scan (l : List Message) :
    lastToolPayloadRev l = none → findLastToolContentRev l = none := by
  induction l with
  | nil => intro _; rfl
  | cons m rest ih =>
    intro h
    cases m with
    | ai c => simp only [lastToolPayloadRev] at h
              simp only [findLastToolContentRev]
              exact ih h
    | human c => simp only [lastToolPayloadRev] at h
                 simp only [findLastToolContentRev]
                 exact ih h
    | tool c a => simp [lastToolPayloadRev] at h

theorem lastTool_pair_scan (l : List Message) :
    ∀ c ds cm,
      lastToolPayloadRev l = some (c, some (PyArtifact.pair ds cm)) →
      findLastToolContentRev l = some c ∧ extractArtifactsRev l = (ds, cm) := by
  induction l with
  | nil => intro c ds cm h; simp [lastToolPayloadRev] at h
  | cons m rest ih =>
    intro c ds cm h
    cases m with
    | ai s =>
      simp only [lastToolPayloadRev] at h
      have hr := ih c ds cm h
      exact ⟨by simpa [findLastToolContentRev] using hr.1,
        by simpa [extractArtifactsRev] using hr.2⟩
    | human s =>
      simp only [lastToolPayloadRev] at h
      have hr := ih c ds cm h
      exact ⟨by simpa [findLastToolContentRev] using hr.1,
        by simpa [extractArtifactsRev] using hr.2⟩
    | tool tc ta =>
      simp only [lastToolPayloadRev, Option.some.injEq, Prod.mk.injEq] at h
      obtain ⟨h1, h2⟩ := h
      subst h1
      subst h2
      exact ⟨rfl, rfl⟩

/-- Claim C2: the Retrieval stage takes its output only from the last
tool-result message of the transcript: if the reverse scan finds no
ToolMessage, the context is empty and citations are None (also at the
node level); if the last ToolMessage carries the retrieval tool's
(docs, citation_map) artifact, the stage outputs exactly that
message's content as context and that citation map (None when the map
is empty), regardless of all surrounding model commentary. -/
theorem claim_C2_last_tool_payload (msgs : List Message) :
    (lastToolPayloadRev msgs.reverse = none →
      retrieval_extract msgs = ("", none))
    ∧ (∀ c ds cm,
        lastToolPayloadRev msgs.reverse
            = some (c, some (PyArtifact.pair ds cm)) →
        retrieval_extract msgs
          = (c, if cm.isEmpty then none else some cm))
    ∧ (∀ (agent : String → List Message) (s : QAState),
        lastToolPayloadRev (agent s.question).reverse = none →
        (retrieval_node agent s).context = some ""
          ∧ (retrieval_node agent s).citations = none) := by
  refine ⟨?_, ?_, ?_⟩
  · intro h
    rw [retrieval_extract, lastTool_none_scan msgs.reverse h]
  · intro c ds cm h
    obtain ⟨h1, h2⟩ := lastTool_pair_scan msgs.reverse c ds cm h
    rw [retrieval_extract, h1, h2]
  · intro agent s h
    have h0 : retrieval_extract (agent s.question) = ("", none) := by
      rw [retrieval_extract, lastTool_none_scan (agent s.question).reverse h]
    constructor
    · show some (retrieval_extract (agent s.question)).1 = some ""
      rw [h0]
    · show (retrieval_extract (agent s.question)).2 = none
      rw [h0]

/-- Claim C2 witness: the theorem applied to a concrete transcript
where free-text commentary surrounds one tool call. -/
theorem claim_C2_witness :
    retrieval_extract
        [Message.human "q", Message.ai "searching",
         Message.tool "CTX"
           (some (PyArtifact.pair []
             [("C1", ⟨PyVal.int 1, "t", PyVal.str "s"⟩)])),
         Message.ai "done"]
      = ("CTX", some [("C1", ⟨PyVal.int 1, "t", PyVal.str "s"⟩)]) := by
  have h := (claim_C2_last_tool_payload
      [Message.human "q", Message.ai "searching",
       Message.tool "CTX"
         (some (PyArtifact.pair []
           [("C1", ⟨PyVal.int 1, "t", PyVal.str "s"⟩)])),
       Message.ai "done"]).2.1 "CTX" []
      [("C1", ⟨PyVal.int 1, "t", PyVal.str "s"⟩)] (by decide)
  simpa using h

/-- Claim C8: each pipeline node writes only the state fields it owns:
retrieval leaves question, draft_answer and answer unchanged;
summarization leaves question, context, citations and answer
unchanged; verification leaves question, context, citations and
draft_answer unchanged; consequently, across the full linear pipeline
the question survives from the input and context/citations survive
from the retrieval stage, and the draft answer from summarization. -/
theorem claim_C8_frame (a1 a2 a3 : String → List Message) (s : QAState) :
    ((retrieval_node a1 s).question = s.question
      ∧ (retrieval_node a1 s).draft_answer = s.draft_answer
      ∧ (retrieval_node a1 s).answer = s.answer)
    ∧ ((summarization_node a2 s).question = s.question
      ∧ (summarization_node a2 s).context = s.context
      ∧ (summarization_node a2 s).citations = s.citations
      ∧ (summarization_node a2 s).answer = s.answer)
    ∧ ((verification_node a3 s).question = s.question
      ∧ (verification_node a3 s).context = s.context
      ∧ (verification_node a3 s).citations = s.citations
      ∧ (verification_node a3 s).draft_answer = s.draft_answer)
    ∧ (run_pipeline a1 a2 a3 s).question = s.question
    ∧ (run_pipeline a1 a2 a3 s).context = (retrieval_node a1 s).context
    ∧ (run_pipeline a1 a2 a3 s).citations = (retrieval_node a1 s).citations
    ∧ (run_pipeline a1 a2 a3 s).draft_answer
        = (summarization_node a2 (retrieval_node a1 s)).draft_answer :=
  ⟨⟨rfl, rfl, rfl⟩, ⟨rfl, rfl, rfl, rfl⟩, ⟨rfl, rfl, rfl, rfl⟩,
    rfl, rfl, rfl, rfl⟩

/-! ### The /qa validation boundary (claim C4) -/

theorem stripList_of_all_space (l : List Char)
    (h : l.all isPySpace = true) : stripList l = [] := by
  have h1 : l.dropWhile isPySpace = [] := by
    rw [List.dropWhile_eq_nil_iff]
    intro x hx
    exact List.all_eq_true.mp h x hx
  simp [stripList, h1]

/-- Claim C4: a question consisting only of whitespace is rejected by
qa_endpoint with a 400 validation failure, and the pipeline service is
never invoked (the call log is empty), whatever the pipeline would
compute. -/
theorem claim_C4_whitespace_rejected (f : String → QAResultDict)
    (q : String) (h : q.data.all isPySpace = true) :
    qa_endpoint f q = (Except.error 400, []) := by
  have h3 : pyStrip q = "" := by
    show String.mk (stripList q.data) = ""
    rw [stripList_of_all_space q.data h]
  have h4 : ("" : String).isEmpty = true := rfl
  simp [qa_endpoint, h3, h4]

/-- Claim C4 witness: the theorem applied to the question consisting
of three spaces. -/
theorem claim_C4_witness :
    qa_endpoint (fun _ => ⟨some "a", some "c", none⟩) "   "
      = (Except.error 400, []) :=
  claim_C4_whitespace_rejected _ "   " (by decide)

/-! ### clear_index is best-effort (claim C5) -/

theorem clear_index_ok (env : ClearEnv) :
    (clear_index env).1 = Except.ok () := by
  obtain ⟨li, iname, st, da⟩ := env
  cases li with
  | error e => rfl
  | ok names =>
    by_cases hmem : iname ∈ names
    · cases st with
      | ok total =>
        by_cases ht : total > 0
        · cases da with
          | ok u => simp [clear_index, hmem, ht]
          | error de => simp [clear_index, hmem, ht]
        · simp [clear_index, hmem, ht]
      | error se => simp [clear_index, hmem]
    · simp [clear_index, hmem]

/-- Claim C5: clear_index never raises to its caller, whatever the
outcomes of the underlying Pinecone calls (non-existent index, empty
index, stats failure, delete failure are all absorbed and logged),
and therefore the ingestion that follows it in the upload endpoint
always runs and its outcome is untouched by the clear step. -/
theorem claim_C5_clear_best_effort (env : ClearEnv)
    (ingest : Except String Nat) :
    (clear_index env).1 = Except.ok ()
    ∧ index_pdf_after_clear env ingest = ingest :=
  ⟨clear_index_ok env,
    by simp [index_pdf_after_clear, clear_index_ok env]⟩

/-! ### Indexing pipeline lemmas (claims C3, C6, C9, C10) -/

theorem prepChunks_append (split : Document → List Document)
    (l1 l2 : List Document) :
    prepChunks split (l1 ++ l2)
      = prepChunks split l1 ++ prepChunks split l2 := by
  induction l1 with
  | nil => rfl
  | cons d ds ih => simp [prepChunks, ih]

theorem fixChunk_keys (p c : Document) :
    (fixChunk p c).metadata.source.isSome = true
    ∧ ((fixChunk p c).metadata.page.isSome = true
        ∨ (fixChunk p c).metadata.page_number.isSome = true) := by
  obtain ⟨cc, cp, cpn, cs⟩ := c
  cases cp <;> cases cpn <;> cases cs <;> simp [fixChunk]

theorem prepChunks_keys (split : Document → List Document)
    (docs : List Document) :
    ∀ ch ∈ prepChunks split docs,
      ch.metadata.source.isSome = true
      ∧ (ch.metadata.page.isSome = true
          ∨ ch.metadata.page_number.isSome = true) := by
  induction docs with
  | nil => intro ch h; simp [prepChunks] at h
  | cons d ds ih =>
    intro ch h
    simp only [prepChunks, List.mem_append, List.mem_map] at h
    rcases h with ⟨c0, _, rfl⟩ | h2
    · exact fixChunk_keys (prepParent d) c0
    · exact ih ch h2

theorem toBatches_flatten_aux {α : Type} :
    ∀ (n : Nat) (l : List α), l.length ≤ n → (toBatches l).flatten = l := by
  intro n
  induction n with
  | zero =>
    intro l h
    have hl : l = [] := by
      cases l with
      | nil => rfl
      | cons a as => simp at h
    rw [hl, toBatches]
    simp
  | succ n ih =>
    intro l h
    by_cases he : l.isEmpty
    · have hl : l = [] := by simpa using he
      rw [hl, toBatches]
      simp
    · rw [toBatches, if_neg he]
      have hlen : (l.drop 100).length ≤ n := by
        have hp : 0 < l.length := by
          cases l with
          | nil => simp at he
          | cons a as => simp
        simp only [List.length_drop]
        omega
      rw [List.flatten_cons, ih (l.drop 100) hlen, List.take_append_drop]

theorem toBatches_flatten {α : Type} (l : List α) :
    (toBatches l).flatten = l :=
  toBatches_flatten_aux l.length l (le_refl _)

theorem mkVectorsAux_length {Emb : Type} (hash : String → Int) :
    ∀ (i : Nat) (l : List (Document × Emb)),
      (mkVectorsAux hash i l).length = l.length := by
  intro i l
  induction l generalizing i with
  | nil => rfl
  | cons p rest ih =>
    obtain ⟨ch, e⟩ := p
    simp [mkVectorsAux, ih]

theorem upsertBatches_ok {Emb : Type}
    (upsert : List (VecRecord Emb) → Except String Unit)
    (hup : ∀ b, upsert b = Except.ok ()) :
    ∀ bs, upsertBatches upsert bs = Except.ok () := by
  intro bs
  induction bs with
  | nil => rfl
  | cons b rest ih => simp [upsertBatches, hup b, ih]

theorem mkVectors_length {Emb : Type} (hash : String → Int)
    (chunks : List Document) (embs : List Emb)
    (h : embs.length = chunks.length) :
    (mkVectors hash chunks embs).length = chunks.length := by
  rw [mkVectors, mkVectorsAux_length]
  simp [h]

/-- Claim C3 counterexample: a one-page input whose page metadata is 1
and whose source metadata is present but equal to the empty string
(with the splitter returning the page unchanged, as the real splitter
does on text shorter than the chunk size) produces a chunk whose
source is the empty string, so not every chunk carries NON-EMPTY
source metadata. -/
theorem claim_C3_counterexample :
    ((prepChunks (fun d => [d])
        [⟨"abc", ⟨some (PyVal.int 1), none, some (PyVal.str "")⟩⟩]).map
      (fun ch => ch.metadata.source)) = [some (PyVal.str "")]
    ∧ ¬ (((prepChunks (fun d => [d])
        [⟨"abc", ⟨some (PyVal.int 1), none, some (PyVal.str "")⟩⟩]).all
      (fun ch => (pyGet ch.metadata.source).truthy)) = true) := by
  exact ⟨by decide, by decide⟩

/-- Claim C3 (amended): index_documents splits each page independently
(chunk collection is a homomorphism over list append, so the chunks of
a page never depend on other pages); every resulting chunk carries a
source key and a page (or page_number) key — defaulted from its parent
page, though the values need not be non-empty strings — and when the
embedding returns one vector per chunk and every upsert batch
succeeds, the returned integer equals the number of chunks, which
equals the number of vector records upserted across all batches. -/
theorem claim_C3_indexing_amended (Emb : Type)
    (split : Document → List Document) (docs l1 l2 : List Document)
    (embed : List String → Except String (List Emb))
    (upsert : List (VecRecord Emb) → Except String Unit)
    (hash : String → Int) (embs : List Emb) :
    prepChunks split (l1 ++ l2)
        = prepChunks split l1 ++ prepChunks split l2
    ∧ (∀ ch ∈ prepChunks split docs,
        ch.metadata.source.isSome = true
        ∧ (ch.metadata.page.isSome = true
            ∨ ch.metadata.page_number.isSome = true))
    ∧ (embed ((prepChunks split docs).map Document.page_content)
          = Except.ok embs →
      embs.length = (prepChunks split docs).length →
      (∀ b, upsert b = Except.ok ()) →
      index_documents split embed upsert hash docs
          = Except.ok (prepChunks split docs).length
        ∧ (toBatches (mkVectors hash (prepChunks split docs) embs)).flatten.length
            = (prepChunks split docs).length) := by
  refine ⟨prepChunks_append split l1 l2, prepChunks_keys split docs, ?_⟩
  intro hembed hlen hup
  have hupsert :
      upsertBatches upsert
          (toBatches (mkVectors hash (prepChunks split docs) embs))
        = Except.ok () := upsertBatches_ok upsert hup _
  constructor
  · simp [index_documents, hembed, hupsert]
  · rw [toBatches_flatten, mkVectors_length hash _ embs hlen]

/-- Claim C3 witness: the amended theorem applied to a concrete
two-page input with a trivial splitter, one embedding per chunk and an
always-succeeding upsert. -/
theorem claim_C3_witness :
    index_documents (fun d => [d])
        (fun ts => Except.ok (ts.map (fun _ => (0 : Nat))))
        (fun _ => Except.ok ()) (fun _ => 0)
        [⟨"pg one", ⟨some (PyVal.int 1), none, some (PyVal.str "d.pdf")⟩⟩,
         ⟨"pg two", ⟨some (PyVal.int 2), none, some (PyVal.str "d.pdf")⟩⟩]
      = Except.ok 2 := by
  have h := (claim_C3_indexing_amended Nat (fun d => [d])
      [⟨"pg one", ⟨some (PyVal.int 1), none, some (PyVal.str "d.pdf")⟩⟩,
       ⟨"pg two", ⟨some (PyVal.int 2), none, some (PyVal.str "d.pdf")⟩⟩]
      [] []
      (fun ts => Except.ok (ts.map (fun _ => (0 : Nat))))
      (fun _ => Except.ok ()) (fun _ => 0) [0, 0]).2.2
      rfl (by decide) (fun b => rfl)
  exact h.1

/-- Claim C6: a failure of the embedding call or of any upsert batch
propagates out of index_documents unchanged, and likewise out of
index_pdf_file, which catches nothing around its call to
index_documents. -/
theorem claim_C6_failures_propagate (Emb : Type)
    (split : Document → List Document) (docs : List Document)
    (embed : List String → Except String (List Emb))
    (upsert : List (VecRecord Emb) → Except String Unit)
    (hash : String → Int) (load : String → List Document) (path : String) :
    (∀ e, embed ((prepChunks split docs).map Document.page_content)
        = Except.error e →
      index_documents split embed upsert hash docs = Except.error e)
    ∧ (∀ e embs,
        embed ((prepChunks split docs).map Document.page_content)
          = Except.ok embs →
        upsertBatches upsert
            (toBatches (mkVectors hash (prepChunks split docs) embs))
          = Except.error e →
        index_documents split embed upsert hash docs = Except.error e)
    ∧ (∀ e, embed ((prepChunks split (fixLoadedDocs path (load path))).map
          Document.page_content) = Except.error e →
      index_pdf_file load split embed upsert hash path = Except.error e)
    ∧ (∀ e embs,
        embed ((prepChunks split (fixLoadedDocs path (load path))).map
          Document.page_content) = Except.ok embs →
        upsertBatches upsert
            (toBatches (mkVectors hash
              (prepChunks split (fixLoadedDocs path (load path))) embs))
          = Except.error e →
        index_pdf_file load split embed upsert hash path
          = Except.error e) := by
  refine ⟨?_, ?_, ?_, ?_⟩
  · intro e h
    simp [index_documents, h]
  · intro e embs h1 h2
    simp [index_documents, h1, h2]
  · intro e h
    simp [index_pdf_file, index_documents, h]
  · intro e embs h1 h2
    simp [index_pdf_file, index_documents, h1, h2]

/-- Claim C6 witness: an embedding-service failure at a concrete input
surfaces from index_documents. -/
theorem claim_C6_witness :
    index_documents (fun d => [d])
        (fun _ => (Except.error "embedding service down"
          : Except String (List Nat)))
        (fun _ => Except.ok ()) (fun _ => 0) [dummyDoc]
      = Except.error "embedding service down" :=
  (claim_C6_failures_propagate Nat (fun d => [d]) [dummyDoc]
      (fun _ => Except.error "embedding service down")
      (fun _ => Except.ok ()) (fun _ => 0) (fun _ => [dummyDoc]) "p").1
    "embedding service down" rfl

/-! ### Loader metadata defaulting (claims C9, C10) -/

theorem fixLoop_getD (path : String) :
    ∀ (docs : List Document) (s i : Nat), i < docs.length →
      (fixLoop path s docs).getD i dummyDoc
        = fixLoadedDoc path (s + i) (docs.getD i dummyDoc) := by
  intro docs
  induction docs with
  | nil => intro s i h; simp at h
  | cons d ds ih =>
    intro s i h
    cases i with
    | zero => simp [fixLoop]
    | succ j =>
      simp only [fixLoop, List.getD_cons_succ]
      rw [ih (s + 1) j (by simpa using h)]
      congr 1
      omega

/-- Claim C9: during the load step of index_pdf_file, the page at
0-based position i of the loader output is post-processed by the
metadata defaulting at 1-based position i + 1; a page with no page and
no page_number metadata key is assigned page i + 1, a page with no
source key is assigned the document reference string, and only then is
the whole list handed to index_documents for splitting. -/
theorem claim_C9_loader_defaults (path : String) (docs : List Document)
    (i : Nat) (h : i < docs.length) :
    (fixLoadedDocs path docs).getD i dummyDoc
        = fixLoadedDoc path (i + 1) (docs.getD i dummyDoc)
    ∧ ((docs.getD i dummyDoc).metadata.page = none →
        (docs.getD i dummyDoc).metadata.page_number = none →
        (fixLoadedDoc path (i + 1) (docs.getD i dummyDoc)).metadata.page
          = some (PyVal.int (i + 1)))
    ∧ ((docs.getD i dummyDoc).metadata.source = none →
        (fixLoadedDoc path (i + 1) (docs.getD i dummyDoc)).metadata.source
          = some (PyVal.str path))
    ∧ (∀ (Emb : Type) (load : String → List Document)
        (split : Document → List Document)
        (embed : List String → Except String (List Emb))
        (upsert : List (VecRecord Emb) → Except String Unit)
        (hash : String → Int),
        load path = docs →
        index_pdf_file load split embed upsert hash path
          = index_documents split embed upsert hash
              (fixLoadedDocs path docs)) := by
  refine ⟨?_, ?_, ?_, ?_⟩
  · have hfl := fixLoop_getD path docs 1 i h
    rw [fixLoadedDocs, hfl]
    congr 1
    omega
  · intro h1 h2
    simp only [fixLoadedDoc, h1, h2]
    simp [pyGet, PyVal.truthy]
    split <;> rfl
  · intro h1
    generalize docs.getD i dummyDoc = d at h1 ⊢
    obtain ⟨dc, dp, dpn, dsrc⟩ := d
    have h2 : dsrc = none := h1
    subst h2
    simp only [fixLoadedDoc, pyGet, PyVal.truthy]
    split <;> rfl
  · intro Emb load split embed upsert hash hload
    rw [index_pdf_file, hload]

/-- Claim C9 witness: the theorem applied to a one-page loader output
with no page, page_number or source metadata. -/
theorem claim_C9_witness :
    ((fixLoadedDocs "doc.pdf" [⟨"p1", ⟨none, none, none⟩⟩]).getD 0
        dummyDoc).metadata.page = some (PyVal.int 1)
    ∧ ((fixLoadedDocs "doc.pdf" [⟨"p1", ⟨none, none, none⟩⟩]).getD 0
        dummyDoc).metadata.source = some (PyVal.str "doc.pdf") := by
  have h := claim_C9_loader_defaults "doc.pdf"
    [⟨"p1", ⟨none, none, none⟩⟩] 0 (by decide)
  constructor
  · rw [h.1]
    exact h.2.1 rfl rfl
  · rw [h.1]
    exact h.2.2.1 rfl

/-- Claim C10 counterexample: a chunk whose metadata carries page 0
and page_number 0 is reported by the serializer with page 0 — the
page_number metadata value — refuting "never as 0". -/
theorem claim_C10_counterexample :
    pageLookup ⟨some (PyVal.int 0), some (PyVal.int 0), none⟩
        = PyVal.int 0
    ∧ ((serialize_chunks_with_ids
        [⟨"t", ⟨some (PyVal.int 0), some (PyVal.int 0),
          some (PyVal.str "doc.pdf")⟩⟩]).2.map
      (fun e => e.2.page)) = [PyVal.int 0] := by
  exact ⟨by decide, by decide⟩

/-- Claim C10 (amended): a falsy page value (0, None, empty string, or
an absent key) is treated as missing: the serializer then reports the
page as the page_number metadata value when that key is present (even
when that value is itself 0) and as the string "unknown" otherwise; and
index_pdf_file overwrites a loaded page's falsy page metadata with the
page's 1-based sequential index exactly when its page_number is also
falsy or absent — a truthy page_number suppresses the overwrite. -/
theorem claim_C10_falsy_page_amended (m : Metadata) (path : String)
    (i : Nat) (d : Document) :
    ((pyGet m.page).truthy = false →
      pageLookup m = m.page_number.getD (PyVal.str "unknown"))
    ∧ ((pyGet m.page).truthy = false → m.page_number = none →
      pageLookup m = PyVal.str "unknown")
    ∧ ((pyGet d.metadata.page).truthy = false →
      (pyGet d.metadata.page_number).truthy = false →
      (fixLoadedDoc path i d).metadata.page = some (PyVal.int i))
    ∧ ((pyGet d.metadata.page).truthy = false →
      (pyGet d.metadata.page_number).truthy = true →
      (fixLoadedDoc path i d).metadata.page = d.metadata.page) := by
  refine ⟨?_, ?_, ?_, ?_⟩
  · intro h1
    simp [pageLookup, h1]
  · intro h1 h2
    simp [pageLookup, h1, h2]
  · intro h1 h2
    simp only [fixLoadedDoc, h1, h2]
    simp
    split <;> rfl
  · intro h1 h2
    simp only [fixLoadedDoc, h1, h2]
    simp
    split <;> rfl

/-- Claim C10 witness: a page of 0 with page_number 7 is reported as 7
by the serializer's page computation. -/
theorem claim_C10_witness :
    pageLookup ⟨some (PyVal.int 0), some (PyVal.int 7), none⟩
      = PyVal.int 7 := by
  have h := (claim_C10_falsy_page_amended
      ⟨some (PyVal.int 0), some (PyVal.int 7), none⟩ "p" 1 dummyDoc).1
    (by decide)
  simpa using h
